import Mathlib

/-!
Verification of the MarketX escrow contract
(src/contracts/marketx/src/lib.rs, types.rs, errors.rs).

The contract state (Soroban persistent storage) is embedded as an explicit
record of association lists; addresses and ids are natural numbers; token
amounts are integers (Rust i128) with explicit range checks where the source
arithmetic can overflow.  Each entry point becomes a function from an
environment (the set of addresses that have authorized the invocation, the
current ledger sequence number, the contract address) and a state to an
`Outcome`: a result, the state after the call, and the list of token
transfers issued.  A Soroban `require_auth` failure and a storage `unwrap`
on a missing key trap rather than returning a `ContractError`; they are
modelled as distinct error values, and every error leaf of a translated
function carries exactly the state and transfers accumulated up to that
point in the source, so that "no mutation before an error" is a theorem
about the translation, not a by-product of its shape.
-/

namespace MarketX

/-- Lifecycle states of an escrow (types.rs, `EscrowStatus`). -/
inductive EscrowStatus where
  | Pending
  | Released
  | Refunded
  | Disputed
deriving DecidableEq, Repr

/-- Status of a refund request (types.rs, `RefundStatus`). -/
inductive RefundStatus where
  | Pending
  | Approved
  | Rejected
  | Completed
  | Cancelled
deriving DecidableEq, Repr

/-- Reasons for requesting a refund (types.rs, `RefundReason`). -/
inductive RefundReason where
  | ChangedMind
  | NotAsDescribed
  | DamagedDefective
  | NotReceived
  | SellerFailedToDeliver
  | Other
deriving DecidableEq, Repr

/-- Errors returned by the contract (errors.rs, `ContractError`). -/
inductive ContractError where
  | EscrowNotFound
  | InvalidTransition
  | Unauthorized
  | EscrowNotFunded
  | AlreadyFunded
  | InvalidFeeConfig
  | InvalidEscrowAmount
  | RefundAmountExceedsEscrow
  | RefundAlreadyProcessed
  | RefundRequestNotFound
  | RefundWindowExpired
  | NotAdmin
deriving DecidableEq, Repr

/-- How a call can fail: a returned `ContractError`, a `require_auth` trap
for the named address, a storage `unwrap` trap on a missing entry, or an
i128 arithmetic overflow trap. -/
inductive CallError where
  | contractErr : ContractError → CallError
  | authTrap : Nat → CallError
  | storageTrap : CallError
  | overflowTrap : CallError
deriving DecidableEq, Repr

/-- The escrow record stored on chain (types.rs, `Escrow`).  Addresses are
embedded as naturals; `amount` is the Rust i128 field embedded as `Int`. -/
structure Escrow where
  buyer : Nat
  seller : Nat
  arbiter : Nat
  token : Nat
  amount : Int
  status : EscrowStatus
  refund_deadline : Nat
  allowPartialRefund : Bool
deriving DecidableEq, Repr

/-- A refund request submitted by a buyer (types.rs, `RefundRequest`). -/
structure RefundRequest where
  refund_id : Nat
  escrow_id : Nat
  buyer : Nat
  refund_amount : Int
  reason : RefundReason
  description : String
  status : RefundStatus
  created_at : Nat
  updated_at : Nat
  expires_at : Nat
  processed_by : Option Nat
  processed_at : Option Nat
  rejection_reason : Option String
deriving DecidableEq, Repr

/-- An audit record appended when a refund completes (types.rs,
`RefundHistoryEntry`). -/
structure RefundHistoryEntry where
  refund_id : Nat
  escrow_id : Nat
  amount : Int
  is_full_refund : Bool
  processed_at : Nat
  processed_by : Nat
deriving DecidableEq, Repr

/-- A token transfer issued via the token client.  `source` and `dest` are
the transfer parties, `amount` the i128 value moved. -/
structure Transfer where
  token : Nat
  source : Nat
  dest : Nat
  amount : Int
deriving DecidableEq, Repr

/-- Ambient data of one invocation: which addresses have authorized it
(`require_auth` succeeds exactly for members), the current ledger sequence
number, and the contract address. -/
structure EnvCtx where
  auths : List Nat
  ledgerSeq : Nat
  contractAddr : Nat
deriving DecidableEq, Repr

/-- Association-list lookup keyed by `Nat`, embedding a storage `get`. -/
def lookupA {α : Type} (m : List (Nat × α)) (k : Nat) : Option α :=
  match m with
  | [] => none
  | (k', v) :: rest => if k' = k then some v else lookupA rest k

/-- Association-list update keyed by `Nat`, embedding a storage `set`
(overwrites an existing entry, appends otherwise). -/
def setA {α : Type} (m : List (Nat × α)) (k : Nat) (v : α) : List (Nat × α) :=
  match m with
  | [] => [(k, v)]
  | (k', v') :: rest => if k' = k then (k, v) :: rest else (k', v') :: setA rest k v

/-- The persistent storage of the contract, one field per `DataKey`
discriminant of types.rs that the entry points touch. -/
structure ContractState where
  admin : Option Nat
  feeCollector : Option Nat
  feeBps : Option Nat
  escrows : List (Nat × Escrow)
  escrowIds : List Nat
  refundRequests : List (Nat × RefundRequest)
  refundCount : Option Nat
  escrowRefunds : List (Nat × List Nat)
  refundHistory : List (Nat × List RefundHistoryEntry)
  globalRefundHistory : List RefundHistoryEntry
  initialValue : Option Nat
deriving DecidableEq, Repr

deriving instance DecidableEq for Except

/-- Result of one entry-point invocation: the returned value or error, the
storage after the call, and the transfers issued, in order. -/
structure Outcome (α : Type) where
  res : Except CallError α
  state : ContractState
  transfers : List Transfer
deriving DecidableEq, Repr

/-- Smallest i128 value, `-(2^127)`, written in digits so that kernel
evaluation needs no exponentiation. -/
def I128_MIN : Int := -170141183460469231731687303715884105728

/-- Largest i128 value, `2^127 - 1`. -/
def I128_MAX : Int := 170141183460469231731687303715884105727

/-- Checked i128 arithmetic: `some x` when `x` is representable, `none`
when the Rust computation would overflow and trap. -/
def checkI128 (x : Int) : Option Int :=
  if I128_MIN ≤ x ∧ x ≤ I128_MAX then some x else none

/-- The transition graph of escrow statuses (types.rs,
`EscrowStatus::can_transition_to`). -/
def can_transition_to (s next : EscrowStatus) : Bool :=
  match s, next with
  | .Pending, .Released => true
  | .Pending, .Disputed => true
  | .Pending, .Refunded => true
  | .Disputed, .Released => true
  | .Disputed, .Refunded => true
  | _, _ => false

/-- The edges of the graph for which `transition_status` demands buyer
authorization (lib.rs, the `matches!` block of `transition_status`). -/
def buyerAuthEdge (s next : EscrowStatus) : Bool :=
  match s, next with
  | .Pending, .Released => true
  | .Pending, .Disputed => true
  | .Pending, .Refunded => true
  | .Disputed, .Refunded => true
  | _, _ => false

/-- Embeds `initialize(env, admin, fee_collector, fee_bps)` of lib.rs:
rejects `fee_bps > 10_000`; if an admin is stored, requires its
authorization and leaves it unchanged, otherwise stores `admin`; then
writes `fee_collector` and `fee_bps`. -/
def initContract (env : EnvCtx) (s : ContractState) (admin fee_collector : Nat)
    (fee_bps : Nat) : Outcome Unit :=
  if fee_bps > 10000 then ⟨.error (.contractErr .InvalidFeeConfig), s, []⟩
  else
    match s.admin with
    | some current =>
      if env.auths.contains current then
        ⟨.ok (), { s with feeCollector := some fee_collector, feeBps := some fee_bps }, []⟩
      else ⟨.error (.authTrap current), s, []⟩
    | none =>
      ⟨.ok (), { s with admin := some admin,
                        feeCollector := some fee_collector,
                        feeBps := some fee_bps }, []⟩

/-- Embeds the second `initialize(env, initial_value)` of lib.rs (the
legacy overload that stores `InitialValue`). -/
def initValue (s : ContractState) (initial_value : Nat) : Outcome Unit :=
  ⟨.ok (), { s with initialValue := some initial_value }, []⟩

/-- Embeds `store_escrow` of lib.rs: rejects non-positive amounts, then
writes the record (silently overwriting any existing one) and appends the
id to the pagination index. -/
def store_escrow (s : ContractState) (escrow_id : Nat) (escrow : Escrow) :
    Outcome Unit :=
  if escrow.amount ≤ 0 then ⟨.error (.contractErr .InvalidEscrowAmount), s, []⟩
  else
    ⟨.ok (), { s with escrows := setA s.escrows escrow_id escrow,
                      escrowIds := s.escrowIds ++ [escrow_id] }, []⟩

/-- Embeds `fund_escrow` of lib.rs: loads the record, rejects a non-Pending
status with `AlreadyFunded`, requires buyer authorization, and transfers
`amount` from the buyer to the contract.  No storage write occurs. -/
def fund_escrow (env : EnvCtx) (s : ContractState) (escrow_id : Nat) :
    Outcome Unit :=
  match lookupA s.escrows escrow_id with
  | none => ⟨.error (.contractErr .EscrowNotFound), s, []⟩
  | some escrow =>
    if escrow.status ≠ EscrowStatus.Pending then
      ⟨.error (.contractErr .AlreadyFunded), s, []⟩
    else if env.auths.contains escrow.buyer then
      ⟨.ok (), s, [⟨escrow.token, escrow.buyer, env.contractAddr, escrow.amount⟩]⟩
    else ⟨.error (.authTrap escrow.buyer), s, []⟩

/-- Embeds `release_escrow` of lib.rs: loads the record, rejects a
non-Pending status with `EscrowNotFunded`, requires buyer authorization,
reads `fee_bps` (defaulting to 0) and `fee_collector` (trapping when
absent), computes `fee_amount = amount * fee_bps / 10_000` in i128
(trapping on overflow of the multiplication, division truncating toward
zero as in Rust), transfers `amount - fee_amount` to the seller and —
only when positive — `fee_amount` to the fee collector, then marks the
escrow `Released`. -/
def release_escrow (env : EnvCtx) (s : ContractState) (escrow_id : Nat) :
    Outcome Unit :=
  match lookupA s.escrows escrow_id with
  | none => ⟨.error (.contractErr .EscrowNotFound), s, []⟩
  | some escrow =>
    if escrow.status ≠ EscrowStatus.Pending then
      ⟨.error (.contractErr .EscrowNotFunded), s, []⟩
    else if ¬ env.auths.contains escrow.buyer then
      ⟨.error (.authTrap escrow.buyer), s, []⟩
    else
      let fee_bps : Nat := s.feeBps.getD 0
      match s.feeCollector with
      | none => ⟨.error .storageTrap, s, []⟩
      | some fee_collector =>
        match checkI128 (escrow.amount * (fee_bps : Int)) with
        | none => ⟨.error .overflowTrap, s, []⟩
        | some prod =>
          let fee_amount := Int.tdiv prod 10000
          match checkI128 (escrow.amount - fee_amount) with
          | none => ⟨.error .overflowTrap, s, []⟩
          | some seller_amount =>
            let ts : List Transfer :=
              ⟨escrow.token, env.contractAddr, escrow.seller, seller_amount⟩ ::
                (if fee_amount > 0 then
                  [⟨escrow.token, env.contractAddr, fee_collector, fee_amount⟩]
                 else [])
            ⟨.ok (),
             { s with escrows := setA s.escrows escrow_id
                        { escrow with status := EscrowStatus.Released } },
             ts⟩

/-- Embeds `refund_escrow` of lib.rs: from `Pending` the initiator must be
the buyer or the seller, from `Disputed` the buyer only, any other state is
`InvalidTransition`; on success the full amount goes back to the buyer and
the status becomes `Refunded`. -/
def refund_escrow (env : EnvCtx) (s : ContractState) (escrow_id : Nat)
    (initiator : Nat) : Outcome Unit :=
  match lookupA s.escrows escrow_id with
  | none => ⟨.error (.contractErr .EscrowNotFound), s, []⟩
  | some escrow =>
    let proceed : Outcome Unit :=
      ⟨.ok (),
       { s with escrows := setA s.escrows escrow_id
                  { escrow with status := EscrowStatus.Refunded } },
       [⟨escrow.token, env.contractAddr, escrow.buyer, escrow.amount⟩]⟩
    match escrow.status with
    | .Pending =>
      if initiator ≠ escrow.buyer ∧ initiator ≠ escrow.seller then
        ⟨.error (.contractErr .Unauthorized), s, []⟩
      else if env.auths.contains initiator then proceed
      else ⟨.error (.authTrap initiator), s, []⟩
    | .Disputed =>
      if initiator ≠ escrow.buyer then
        ⟨.error (.contractErr .Unauthorized), s, []⟩
      else if env.auths.contains initiator then proceed
      else ⟨.error (.authTrap initiator), s, []⟩
    | _ => ⟨.error (.contractErr .InvalidTransition), s, []⟩

/-- Embeds `transition_status` of lib.rs: validates the move against the
graph first, then requires buyer authorization on the buyer-initiated
edges, then writes the new status. -/
def transition_status (env : EnvCtx) (s : ContractState) (escrow_id : Nat)
    (new_status : EscrowStatus) : Outcome Unit :=
  match lookupA s.escrows escrow_id with
  | none => ⟨.error (.contractErr .EscrowNotFound), s, []⟩
  | some escrow =>
    if ¬ can_transition_to escrow.status new_status then
      ⟨.error (.contractErr .InvalidTransition), s, []⟩
    else if buyerAuthEdge escrow.status new_status ∧
        ¬ env.auths.contains escrow.buyer then
      ⟨.error (.authTrap escrow.buyer), s, []⟩
    else
      ⟨.ok (),
       { s with escrows := setA s.escrows escrow_id
                  { escrow with status := new_status } }, []⟩

/-- Embeds `resolve_dispute` of lib.rs: loads the record, requires arbiter
authorization, then rejects a non-Disputed status or a resolution other
than `Released`/`Refunded` with `InvalidTransition`, then writes the
resolution. -/
def resolve_dispute (env : EnvCtx) (s : ContractState) (escrow_id : Nat)
    (resolution : EscrowStatus) : Outcome Unit :=
  match lookupA s.escrows escrow_id with
  | none => ⟨.error (.contractErr .EscrowNotFound), s, []⟩
  | some escrow =>
    if ¬ env.auths.contains escrow.arbiter then
      ⟨.error (.authTrap escrow.arbiter), s, []⟩
    else if escrow.status ≠ EscrowStatus.Disputed then
      ⟨.error (.contractErr .InvalidTransition), s, []⟩
    else if ¬ (resolution = EscrowStatus.Released ∨ resolution = EscrowStatus.Refunded) then
      ⟨.error (.contractErr .InvalidTransition), s, []⟩
    else
      ⟨.ok (),
       { s with escrows := setA s.escrows escrow_id
                  { escrow with status := resolution } }, []⟩

/-- Embeds `set_admin` of lib.rs: when an admin is stored its authorization
is required, then the new admin is written. -/
def set_admin (env : EnvCtx) (s : ContractState) (admin : Nat) : Outcome Unit :=
  match s.admin with
  | some current =>
    if env.auths.contains current then
      ⟨.ok (), { s with admin := some admin }, []⟩
    else ⟨.error (.authTrap current), s, []⟩
  | none => ⟨.ok (), { s with admin := some admin }, []⟩

/-- Embeds `set_fee_percentage` of lib.rs: loads the admin (`NotAdmin` when
unset), requires its authorization, rejects `fee_bps > 1000`, then writes
the new fee. -/
def set_fee_percentage (env : EnvCtx) (s : ContractState) (fee_bps : Nat) :
    Outcome Unit :=
  match s.admin with
  | none => ⟨.error (.contractErr .NotAdmin), s, []⟩
  | some admin =>
    if ¬ env.auths.contains admin then ⟨.error (.authTrap admin), s, []⟩
    else if fee_bps > 1000 then ⟨.error (.contractErr .InvalidFeeConfig), s, []⟩
    else ⟨.ok (), { s with feeBps := some fee_bps }, []⟩

/-- Embeds `submit_refund_request` of lib.rs: loads the escrow, checks the
status is `Pending` or `Disputed`, the amount positive and at most the
escrow amount, the refund deadline not passed, partial refunds allowed when
the amount is below the escrow amount, and buyer authorization; then
assigns the next refund id, stores the request, bumps the counter and
appends the id to the per-escrow refund list.  Returns the refund id. -/
def submit_refund_request (env : EnvCtx) (s : ContractState) (escrow_id : Nat)
    (refund_amount : Int) (reason : RefundReason) (description : String) :
    Outcome Nat :=
  match lookupA s.escrows escrow_id with
  | none => ⟨.error (.contractErr .EscrowNotFound), s, []⟩
  | some escrow =>
    if escrow.status ≠ EscrowStatus.Pending ∧ escrow.status ≠ EscrowStatus.Disputed then
      ⟨.error (.contractErr .InvalidTransition), s, []⟩
    else if refund_amount ≤ 0 then
      ⟨.error (.contractErr .InvalidEscrowAmount), s, []⟩
    else if refund_amount > escrow.amount then
      ⟨.error (.contractErr .RefundAmountExceedsEscrow), s, []⟩
    else if escrow.refund_deadline > 0 ∧ env.ledgerSeq > escrow.refund_deadline then
      ⟨.error (.contractErr .RefundWindowExpired), s, []⟩
    else if refund_amount < escrow.amount ∧ ¬ escrow.allowPartialRefund then
      ⟨.error (.contractErr .RefundAmountExceedsEscrow), s, []⟩
    else if ¬ env.auths.contains escrow.buyer then
      ⟨.error (.authTrap escrow.buyer), s, []⟩
    else
      let refund_id := s.refundCount.getD 0 + 1
      let expires_at := max escrow.refund_deadline (env.ledgerSeq + 20160)
      let req : RefundRequest :=
        { refund_id := refund_id, escrow_id := escrow_id,
          buyer := escrow.buyer, refund_amount := refund_amount,
          reason := reason, description := description,
          status := RefundStatus.Pending,
          created_at := env.ledgerSeq, updated_at := env.ledgerSeq,
          expires_at := expires_at,
          processed_by := none, processed_at := none, rejection_reason := none }
      let oldRefunds := (lookupA s.escrowRefunds escrow_id).getD []
      ⟨.ok refund_id,
       { s with refundRequests := setA s.refundRequests refund_id req,
                refundCount := some refund_id,
                escrowRefunds := setA s.escrowRefunds escrow_id (oldRefunds ++ [refund_id]) },
       []⟩

/-- Embeds `approve_refund_request` of lib.rs: loads the admin (`NotAdmin`
when unset), requires its authorization, loads the request, rejects a
non-Pending request with `RefundAlreadyProcessed`, then marks it
`Approved` stamping `updated_at`, `processed_by` and `processed_at`. -/
def approve_refund_request (env : EnvCtx) (s : ContractState) (refund_id : Nat) :
    Outcome Unit :=
  match s.admin with
  | none => ⟨.error (.contractErr .NotAdmin), s, []⟩
  | some admin =>
    if ¬ env.auths.contains admin then ⟨.error (.authTrap admin), s, []⟩
    else
      match lookupA s.refundRequests refund_id with
      | none => ⟨.error (.contractErr .RefundRequestNotFound), s, []⟩
      | some req =>
        if req.status ≠ RefundStatus.Pending then
          ⟨.error (.contractErr .RefundAlreadyProcessed), s, []⟩
        else
          ⟨.ok (),
           { s with refundRequests :=
                      setA s.refundRequests refund_id
                        { req with status := RefundStatus.Approved,
                                   updated_at := env.ledgerSeq,
                                   processed_by := some admin,
                                   processed_at := some env.ledgerSeq } }, []⟩

/-- Embeds `reject_refund_request` of lib.rs: as `approve_refund_request`
but marking the request `Rejected` and storing the rejection reason. -/
def reject_refund_request (env : EnvCtx) (s : ContractState) (refund_id : Nat)
    (reason : String) : Outcome Unit :=
  match s.admin with
  | none => ⟨.error (.contractErr .NotAdmin), s, []⟩
  | some admin =>
    if ¬ env.auths.contains admin then ⟨.error (.authTrap admin), s, []⟩
    else
      match lookupA s.refundRequests refund_id with
      | none => ⟨.error (.contractErr .RefundRequestNotFound), s, []⟩
      | some req =>
        if req.status ≠ RefundStatus.Pending then
          ⟨.error (.contractErr .RefundAlreadyProcessed), s, []⟩
        else
          ⟨.ok (),
           { s with refundRequests :=
                      setA s.refundRequests refund_id
                        { req with status := RefundStatus.Rejected,
                                   updated_at := env.ledgerSeq,
                                   processed_by := some admin,
                                   processed_at := some env.ledgerSeq,
                                   rejection_reason := some reason } }, []⟩

/-- Embeds `process_refund` of lib.rs: loads the admin and requires its
authorization, loads the request (must be `Approved`), loads the escrow,
transfers `refund_amount` from the contract to the buyer of the request,
then — exactly as the source does — decrements the escrow amount when
`refund_amount < amount` and otherwise sets the status to `Refunded`,
marks the request `Completed`, and appends a history entry whose
`is_full_refund` flag compares `refund_amount` against the escrow record
AFTER that update (the local `escrow` variable the source mutated). -/
def process_refund (env : EnvCtx) (s : ContractState) (refund_id : Nat) :
    Outcome Unit :=
  match s.admin with
  | none => ⟨.error (.contractErr .NotAdmin), s, []⟩
  | some admin =>
    if ¬ env.auths.contains admin then ⟨.error (.authTrap admin), s, []⟩
    else
      match lookupA s.refundRequests refund_id with
      | none => ⟨.error (.contractErr .RefundRequestNotFound), s, []⟩
      | some req =>
        if req.status ≠ RefundStatus.Approved then
          ⟨.error (.contractErr .RefundAlreadyProcessed), s, []⟩
        else
          match lookupA s.escrows req.escrow_id with
          | none => ⟨.error (.contractErr .EscrowNotFound), s, []⟩
          | some escrow =>
            let t : Transfer := ⟨escrow.token, env.contractAddr, req.buyer, req.refund_amount⟩
            let escrow' :=
              if req.refund_amount < escrow.amount then
                { escrow with amount := escrow.amount - req.refund_amount }
              else { escrow with status := EscrowStatus.Refunded }
            let req' := { req with status := RefundStatus.Completed,
                                   updated_at := env.ledgerSeq }
            let is_full := decide (req.refund_amount ≥ escrow'.amount)
            let entry : RefundHistoryEntry :=
              { refund_id := refund_id, escrow_id := req.escrow_id,
                amount := req.refund_amount, is_full_refund := is_full,
                processed_at := env.ledgerSeq, processed_by := admin }
            let oldHist := (lookupA s.refundHistory req.escrow_id).getD []
            ⟨.ok (),
             { s with escrows := setA s.escrows req.escrow_id escrow',
                      refundRequests := setA s.refundRequests refund_id req',
                      refundHistory := setA s.refundHistory req.escrow_id (oldHist ++ [entry]),
                      globalRefundHistory := s.globalRefundHistory ++ [entry] },
             [t]⟩

/-- Embeds `cancel_refund_request` of lib.rs: loads the request, rejects a
non-Pending request with `RefundAlreadyProcessed`, requires buyer
authorization, then marks the request `Cancelled`. -/
def cancel_refund_request (env : EnvCtx) (s : ContractState) (refund_id : Nat) :
    Outcome Unit :=
  match lookupA s.refundRequests refund_id with
  | none => ⟨.error (.contractErr .RefundRequestNotFound), s, []⟩
  | some req =>
    if req.status ≠ RefundStatus.Pending then
      ⟨.error (.contractErr .RefundAlreadyProcessed), s, []⟩
    else if ¬ env.auths.contains req.buyer then
      ⟨.error (.authTrap req.buyer), s, []⟩
    else
      ⟨.ok (),
       { s with refundRequests :=
                  setA s.refundRequests refund_id
                    { req with status := RefundStatus.Cancelled,
                               updated_at := env.ledgerSeq } }, []⟩

/-- One invocation of a state-changing entry point of the contract, with
its arguments. -/
inductive Op where
  | opInitContract (admin fee_collector : Nat) (fee_bps : Nat)
  | opInitValue (v : Nat)
  | opStoreEscrow (escrow_id : Nat) (escrow : Escrow)
  | opFundEscrow (escrow_id : Nat)
  | opReleaseEscrow (escrow_id : Nat)
  | opRefundEscrow (escrow_id : Nat) (initiator : Nat)
  | opTransitionStatus (escrow_id : Nat) (new_status : EscrowStatus)
  | opResolveDispute (escrow_id : Nat) (resolution : EscrowStatus)
  | opSetAdmin (admin : Nat)
  | opSetFeePercentage (fee_bps : Nat)
  | opSubmitRefundRequest (escrow_id : Nat) (amount : Int)
      (reason : RefundReason) (description : String)
  | opApproveRefundRequest (refund_id : Nat)
  | opRejectRefundRequest (refund_id : Nat) (reason : String)
  | opProcessRefund (refund_id : Nat)
  | opCancelRefundRequest (refund_id : Nat)
deriving DecidableEq, Repr

/-- Forgets the returned value of an outcome, keeping result, state and
transfers. -/
def Outcome.toUnit {α : Type} (o : Outcome α) : Outcome Unit :=
  ⟨o.res.map (fun _ => ()), o.state, o.transfers⟩

/-- Dispatches one operation to the corresponding entry-point embedding. -/
def step (env : EnvCtx) (op : Op) (s : ContractState) : Outcome Unit :=
  match op with
  | .opInitContract a fc bps => initContract env s a fc bps
  | .opInitValue v => initValue s v
  | .opStoreEscrow id e => store_escrow s id e
  | .opFundEscrow id => fund_escrow env s id
  | .opReleaseEscrow id => release_escrow env s id
  | .opRefundEscrow id init => refund_escrow env s id init
  | .opTransitionStatus id st => transition_status env s id st
  | .opResolveDispute id st => resolve_dispute env s id st
  | .opSetAdmin a => set_admin env s a
  | .opSetFeePercentage bps => set_fee_percentage env s bps
  | .opSubmitRefundRequest id amt r d => (submit_refund_request env s id amt r d).toUnit
  | .opApproveRefundRequest rid => approve_refund_request env s rid
  | .opRejectRefundRequest rid reason => reject_refund_request env s rid reason
  | .opProcessRefund rid => process_refund env s rid
  | .opCancelRefundRequest rid => cancel_refund_request env s rid

/-- Operations for which the spec transition graph governs every status
change.  `store_escrow` (which silently overwrites a whole record) and
`process_refund` (which forces `Refunded` whatever the current status) are
the two exceptions. -/
def Op.graphGoverned : Op → Bool
  | .opStoreEscrow _ _ => false
  | .opProcessRefund _ => false
  | _ => true

/-- Modelled from the spec: the error enumeration of spec §7 includes
variants that `errors.rs` lacks (`FeeBelowMinimum`, `InvalidReleaseAmount`,
`ReentrancyDetected`); these are the variants the spec-modelled operations
below can produce. -/
inductive SpecError where
  | EscrowNotFunded
  | Unauthorized
  | InvalidReleaseAmount
  | FeeBelowMinimum
  | ReentrancyDetected
deriving DecidableEq, Repr

/-- Modelled from the spec: the escrow record of spec §3 carries a
`released_amount` field ("cumulative value already paid out to the
seller") that the `Escrow` struct of types.rs does not have; this record
holds the fields the partial-release and reentrancy operations of spec
§4.1/§4.3 touch. -/
structure SpecEscrow where
  buyer : Nat
  seller : Nat
  amount : Int
  releasedAmount : Int
  status : EscrowStatus
deriving DecidableEq, Repr

/-- Modelled from the spec: `release_partial(escrow_id, amount)` of spec
§4.1 is absent from src/.  Per the spec it requires `status == Pending`
and buyer authorization, computes `fee = floor(amount * fee_bps / 10000)`
and rejects `fee < min_fee` with `FeeBelowMinimum`, rejects with
`InvalidReleaseAmount` a release whose new `released_amount` would exceed
`amount`, increments `released_amount`, and sets `status = Released` only
once `released_amount == amount`.  A non-positive release amount is also
rejected with `InvalidReleaseAmount`: the spec invariant
`0 ≤ released_amount ≤ amount` (§8) holds after every operation sequence
only if such requests never go through. -/
def releasePartial (feeBps minFee : Int) (buyerAuthorized : Bool)
    (e : SpecEscrow) (amt : Int) : Except SpecError SpecEscrow :=
  if e.status ≠ EscrowStatus.Pending then .error .EscrowNotFunded
  else if ¬ buyerAuthorized then .error .Unauthorized
  else if amt ≤ 0 then .error .InvalidReleaseAmount
  else if e.amount < e.releasedAmount + amt then .error .InvalidReleaseAmount
  else
    let fee := Int.tdiv (amt * feeBps) 10000
    if fee < minFee then .error .FeeBelowMinimum
    else
      .ok { e with releasedAmount := e.releasedAmount + amt,
                   status := if e.releasedAmount + amt = e.amount then
                               EscrowStatus.Released
                             else EscrowStatus.Pending }

/-- Outcome of a guarded fund-moving call: result, the guard flag after
the call, and the escrow record after the call. -/
structure GOutcome where
  res : Except SpecError Unit
  guard : Bool
  escrow : SpecEscrow
deriving DecidableEq, Repr

/-- Modelled from the spec: the `ReentrancyGuard` of spec §4.3 is absent
from src/.  `enter()` fails with `ReentrancyDetected` when the latch is
already held, otherwise sets it; the body then runs; `exit()` clears the
latch unconditionally and runs on every exit path, including failures. -/
def guarded (body : SpecEscrow → Except SpecError SpecEscrow)
    (g : Bool) (e : SpecEscrow) : GOutcome :=
  if g then ⟨.error .ReentrancyDetected, g, e⟩
  else
    match body e with
    | .ok e' => ⟨.ok (), false, e'⟩
    | .error err => ⟨.error err, false, e⟩

/-- Modelled from the spec: `release(escrow_id)` of spec §4.1 wrapped in
the reentrancy guard of §4.3 — a full release is a partial release of the
whole remaining amount. -/
def guardedReleaseEscrow (feeBps minFee : Int) (authd : Bool) (g : Bool)
    (e : SpecEscrow) : GOutcome :=
  guarded (fun esc => releasePartial feeBps minFee authd esc
            (esc.amount - esc.releasedAmount)) g e

/-- Modelled from the spec: `release_partial(escrow_id, amount)` of spec
§4.1 wrapped in the reentrancy guard of §4.3. -/
def guardedReleasePartial (feeBps minFee : Int) (authd : Bool) (amt : Int)
    (g : Bool) (e : SpecEscrow) : GOutcome :=
  guarded (fun esc => releasePartial feeBps minFee authd esc amt) g e

/-- The empty storage: nothing initialized, no records. -/
def st0 : ContractState :=
  ⟨none, none, none, [], [], [], none, [], [], [], none⟩

/-- A Pending escrow: buyer 1, seller 2, arbiter 7, token 0, amount 100,
no refund deadline, partial refunds allowed. -/
def escP : Escrow := ⟨1, 2, 7, 0, 100, .Pending, 0, true⟩

/-- An Approved refund request for escrow 1 over 60 of its 100 units. -/
def reqApproved60 : RefundRequest :=
  ⟨4, 1, 1, 60, .Other, "", .Approved, 0, 0, 0, none, none, none⟩

/-- State for the C10 witness: admin 9, escrow 1 Pending with amount 100,
refund request 4 Approved over 60. -/
def c10State : ContractState :=
  { st0 with admin := some 9, escrows := [(1, escP)],
             refundRequests := [(4, reqApproved60)] }

/-- Environment with the admin (address 9) authorized, ledger 50,
contract address 99. -/
def envAdmin : EnvCtx := ⟨[9], 50, 99⟩

/-- A Disputed escrow: buyer 1, seller 2, arbiter 7, token 0, amount 100. -/
def escD : Escrow := ⟨1, 2, 7, 0, 100, .Disputed, 0, true⟩

/-- State holding the Disputed escrow `escD` under id 1. -/
def stDisputed : ContractState := { st0 with escrows := [(1, escD)] }

/-- Environment with the buyer (address 1) authorized. -/
def envBuyer : EnvCtx := ⟨[1], 50, 99⟩

/-- A Released (terminal) escrow: buyer 1, seller 2, arbiter 7, amount 100. -/
def escR : Escrow := ⟨1, 2, 7, 0, 100, .Released, 0, true⟩

/-- State holding the Released escrow `escR` under id 1. -/
def stReleased : ContractState := { st0 with escrows := [(1, escR)] }

/-- Environment in which nobody has authorized the invocation. -/
def envNone : EnvCtx := ⟨[], 50, 99⟩

/-- Environment with the arbiter (address 7) authorized. -/
def envArbiter : EnvCtx := ⟨[7], 50, 99⟩

/-- State holding the Pending escrow `escP` under id 1. -/
def stPending : ContractState := { st0 with escrows := [(1, escP)] }

/-- The fee expression of `release_escrow`:
`fee_amount = escrow.amount * fee_bps as i128 / 10_000`, division
truncating toward zero as in Rust. -/
def feeOf (amount : Int) (bps : Nat) : Int := Int.tdiv (amount * (bps : Int)) 10000

/-- A Pending escrow whose amount `2^126` (in digits) is representable in
i128 but makes `amount * fee_bps` overflow i128 for any `fee_bps ≥ 2`. -/
def escBig : Escrow :=
  ⟨1, 2, 7, 0, 85070591730234615865843651857942052864, .Pending, 0, true⟩

/-- Fee configuration 250 bps with collector 3, holding `escBig`. -/
def stBig : ContractState :=
  { st0 with feeCollector := some 3, feeBps := some 250,
             escrows := [(1, escBig)] }

/-- Scenario B escrow: amount 10,000,000, Pending. -/
def escB : Escrow := ⟨1, 2, 7, 0, 10000000, .Pending, 0, true⟩

/-- Scenario B state: fee 250 bps, collector 3, holding `escB`. -/
def stFee : ContractState :=
  { st0 with feeCollector := some 3, feeBps := some 250,
             escrows := [(1, escB)] }

/-- An Approved refund request over the full amount (100) of escrow 5. -/
def reqFull5 : RefundRequest :=
  ⟨2, 5, 1, 100, .Other, "", .Approved, 0, 0, 0, none, none, none⟩

/-- State for the C1 counterexample: admin 9, the Released escrow `escR`
stored under id 5, and the approved full-amount refund request `reqFull5`
pointing at it. -/
def stC1 : ContractState :=
  { st0 with admin := some 9, escrows := [(5, escR)],
             refundRequests := [(2, reqFull5)] }

/-- Scenario A escrow for the spec-modelled partial release: amount
10,000,000, nothing released yet, Pending. -/
def specA : SpecEscrow := ⟨1, 2, 10000000, 0, .Pending⟩

end MarketX

namespace MarketX

theorem lookupA_setA {α : Type} (m : List (Nat × α)) (k j : Nat) (v : α) :
    lookupA (setA m k v) j = if k = j then some v else lookupA m j := by
  induction m with
  | nil => simp [setA, lookupA]
  | cons p rest ih =>
    obtain ⟨k', v'⟩ := p
    by_cases hk : k' = k
    · subst hk
      by_cases hj : k' = j <;> simp [setA, lookupA, hj]
    · by_cases hj : k' = j
      · subst hj
        simp [setA, lookupA, hk]
        rw [if_neg (fun h => hk h.symm)]
      · simp [setA, lookupA, hk, hj, ih]

/-- C10: in `process_refund` the `is_full_refund` flag of the appended
history entry is computed against the escrow record after the
partial-refund decrement: an approved partial refund of `r < amount` with
`amount - r ≤ r` completes with the escrow status unchanged and its amount
decremented, yet the entry appended to both the per-escrow and the global
history carries `is_full_refund = true`. -/
theorem process_refund_flag_after_decrement
    (env : EnvCtx) (s : ContractState) (rid adm : Nat)
    (req : RefundRequest) (e : Escrow)
    (hadm : s.admin = some adm)
    (hauth : env.auths.contains adm = true)
    (hreq : lookupA s.refundRequests rid = some req)
    (hst : req.status = RefundStatus.Approved)
    (hesc : lookupA s.escrows req.escrow_id = some e)
    (hpart : req.refund_amount < e.amount)
    (hge : e.amount - req.refund_amount ≤ req.refund_amount) :
    (process_refund env s rid).res = .ok () ∧
    lookupA (process_refund env s rid).state.escrows req.escrow_id =
      some { e with amount := e.amount - req.refund_amount } ∧
    lookupA (process_refund env s rid).state.refundHistory req.escrow_id =
      some ((lookupA s.refundHistory req.escrow_id).getD [] ++
        [⟨rid, req.escrow_id, req.refund_amount, true, env.ledgerSeq, adm⟩]) ∧
    (process_refund env s rid).state.globalRefundHistory =
      s.globalRefundHistory ++
        [⟨rid, req.escrow_id, req.refund_amount, true, env.ledgerSeq, adm⟩] := by
  have hflag : decide (req.refund_amount ≥ e.amount - req.refund_amount) = true := by
    simpa using hge
  simp only [process_refund, hadm, hauth, hreq, hesc, hst]
  simp [hpart, hflag, lookupA_setA]
  omega

/-- C3: `refund_escrow(escrow_id, initiator)` succeeds from Pending only
for the buyer or the seller and from Disputed only for the buyer (a seller
initiator on a Disputed escrow gets `Unauthorized`); from Released or
Refunded it returns `InvalidTransition`; on success the full amount goes
to the buyer in a single fee-free transfer and the status becomes
Refunded. -/
theorem refund_escrow_correct (env : EnvCtx) (s : ContractState)
    (id init : Nat) (e : Escrow)
    (hl : lookupA s.escrows id = some e) :
    ((e.status = .Released ∨ e.status = .Refunded) →
      refund_escrow env s id init = ⟨.error (.contractErr .InvalidTransition), s, []⟩)
    ∧ (e.status = .Pending → init ≠ e.buyer → init ≠ e.seller →
      refund_escrow env s id init = ⟨.error (.contractErr .Unauthorized), s, []⟩)
    ∧ (e.status = .Disputed → init ≠ e.buyer →
      refund_escrow env s id init = ⟨.error (.contractErr .Unauthorized), s, []⟩)
    ∧ ((refund_escrow env s id init).res = .ok () →
      ((e.status = .Pending ∧ (init = e.buyer ∨ init = e.seller)) ∨
        (e.status = .Disputed ∧ init = e.buyer)) ∧
      (refund_escrow env s id init).transfers =
        [⟨e.token, env.contractAddr, e.buyer, e.amount⟩] ∧
      lookupA (refund_escrow env s id init).state.escrows id =
        some { e with status := .Refunded }) := by
  obtain ⟨b, sl, ar, tk, am, stt, dl, ap⟩ := e
  refine ⟨?_, ?_, ?_, ?_⟩
  · rintro (h | h) <;> (simp only at h; subst h; simp [refund_escrow, hl])
  · intro h hb hs
    simp only at h; subst h
    simp [refund_escrow, hl, hb, hs]
  · intro h hb
    simp only at h; subst h
    simp [refund_escrow, hl, hb]
  · intro hok
    cases stt <;> by_cases hb : init = b <;> by_cases hs : init = sl <;>
      cases ha : env.auths.contains init <;>
      simp_all [refund_escrow, lookupA_setA]

/-- C3 witness: on the Disputed escrow `escD` (buyer 1, seller 2), a
seller-initiated refund is rejected `Unauthorized`, and a buyer-initiated
refund succeeds, transfers the full 100 units to the buyer and sets the
status to Refunded. -/
theorem refund_escrow_correct_witness :
    lookupA stDisputed.escrows 1 = some escD ∧
    refund_escrow envBuyer stDisputed 1 2 =
      ⟨.error (.contractErr .Unauthorized), stDisputed, []⟩ ∧
    (((escD.status = .Pending ∧ ((1 : Nat) = escD.buyer ∨ (1 : Nat) = escD.seller)) ∨
        (escD.status = .Disputed ∧ (1 : Nat) = escD.buyer)) ∧
      (refund_escrow envBuyer stDisputed 1 1).transfers =
        [⟨escD.token, envBuyer.contractAddr, escD.buyer, escD.amount⟩] ∧
      lookupA (refund_escrow envBuyer stDisputed 1 1).state.escrows 1 =
        some { escD with status := .Refunded }) :=
  ⟨by decide,
   (refund_escrow_correct envBuyer stDisputed 1 2 escD (by decide)).2.2.1
     (by decide) (by decide),
   (refund_escrow_correct envBuyer stDisputed 1 1 escD (by decide)).2.2.2
     (by decide)⟩

/-- C5 counterexample: on the Released escrow `escR` the requested
resolution is invalid from the current status, yet with an empty
authorization set `resolve_dispute` does not return `InvalidTransition` —
it traps on the arbiter authorization check, which the source performs
before validating the state.  This refutes the claim that for
`resolve_dispute` transition validation runs before any authorization
check. -/
theorem resolve_dispute_auth_first_cx :
    can_transition_to escR.status .Released = false ∧
    escR.status ≠ .Disputed ∧
    resolve_dispute envNone stReleased 1 .Released =
      ⟨.error (.authTrap 7), stReleased, []⟩ := by decide

/-- C5 amended: for `transition_status`, graph validation runs before the
authorization check — an invalid transition returns `InvalidTransition`
whatever the authorization set; for `resolve_dispute`, arbiter
authorization is required first, and once the arbiter has authorized the
call, a non-Disputed status or a resolution other than Released/Refunded
returns `InvalidTransition`. -/
theorem transition_validation_before_auth (env : EnvCtx) (s : ContractState)
    (id : Nat) (ns : EscrowStatus) (e : Escrow)
    (hl : lookupA s.escrows id = some e) :
    (can_transition_to e.status ns = false →
      transition_status env s id ns =
        ⟨.error (.contractErr .InvalidTransition), s, []⟩)
    ∧ (env.auths.contains e.arbiter = true →
       (e.status ≠ .Disputed ∨ (ns ≠ .Released ∧ ns ≠ .Refunded)) →
      resolve_dispute env s id ns =
        ⟨.error (.contractErr .InvalidTransition), s, []⟩) := by
  constructor
  · intro h
    simp [transition_status, hl, h]
  · intro ha hbad
    have ha' : e.arbiter ∈ env.auths := by simpa using ha
    rcases hbad with h | ⟨h1, h2⟩
    · simp [resolve_dispute, hl, ha', h]
    · by_cases hd : e.status = EscrowStatus.Disputed
      · simp [resolve_dispute, hl, ha', hd, h1, h2]
      · simp [resolve_dispute, hl, ha', hd]

/-- C5 witness: with nobody authorized, `transition_status` on the
Released escrow still answers `InvalidTransition`; with the arbiter
authorized, `resolve_dispute` on the same non-Disputed escrow answers
`InvalidTransition`. -/
theorem transition_validation_before_auth_witness :
    lookupA stReleased.escrows 1 = some escR ∧
    can_transition_to escR.status .Pending = false ∧
    transition_status envNone stReleased 1 .Pending =
      ⟨.error (.contractErr .InvalidTransition), stReleased, []⟩ ∧
    resolve_dispute envArbiter stReleased 1 .Released =
      ⟨.error (.contractErr .InvalidTransition), stReleased, []⟩ :=
  ⟨by decide, by decide,
   (transition_validation_before_auth envNone stReleased 1 .Pending escR
     (by decide)).1 (by decide),
   (transition_validation_before_auth envArbiter stReleased 1 .Released escR
     (by decide)).2 (by decide) (by decide)⟩

/-- C2: the source of `fund_escrow` documents that a second call on the
same escrow is rejected with `AlreadyFunded`, but the only check it makes
is `status != Pending`, and funding never changes the status: on the
Pending escrow `escP` the first call succeeds with the buyer-to-contract
transfer and leaves the state untouched, so the repeated call succeeds
again and issues a second identical transfer instead of failing with
`AlreadyFunded`; only a non-Pending status (here the Released `escR`)
triggers `AlreadyFunded`. -/
theorem fund_escrow_double_funding_bug :
    fund_escrow envBuyer stPending 1 =
      ⟨.ok (), stPending, [⟨0, 1, 99, 100⟩]⟩ ∧
    fund_escrow envBuyer ((fund_escrow envBuyer stPending 1).state) 1 =
      ⟨.ok (), stPending, [⟨0, 1, 99, 100⟩]⟩ ∧
    (fund_escrow envBuyer stReleased 1).res =
      .error (.contractErr .AlreadyFunded) := by decide

/-- C4 counterexample: the claim asserts the fee is computed without
overflow for every amount in the 128-bit signed range and every
`fee_bps ≤ 10_000`, but `release_escrow` multiplies in i128: on the
Pending escrow of amount `2^126` (representable in i128) with
`fee_bps = 250`, the product `2^126 * 250` exceeds `i128::MAX`, the
multiplication overflows, and the release traps with no transfer instead
of paying the seller. -/
theorem release_escrow_fee_overflow_cx :
    0 < escBig.amount ∧ escBig.amount ≤ I128_MAX ∧
    stBig.feeBps = some 250 ∧ (250 : Nat) ≤ 10000 ∧
    I128_MAX < escBig.amount * 250 ∧
    release_escrow envBuyer stBig 1 = ⟨.error .overflowTrap, stBig, []⟩ := by
  refine ⟨by decide, by decide, by decide, by decide, by decide, ?_⟩
  have hcheck :
      checkI128 (21267647932558653966460912964485513216000 : Int) = none := by
    decide
  simp [release_escrow, stBig, lookupA, escBig, envBuyer, hcheck]

/-- C4 amended: on release of a Pending escrow with stored fee collector
and `fee_bps ≤ 10_000`, provided `amount * fee_bps` fits in i128 (beyond
that the multiplication overflows and the call traps, as the
counterexample shows), the fee is
`fee = floor(amount * fee_bps / 10_000)`, the seller receives
`net = amount - fee`, the collector receives `fee` unless it is zero (the
fee transfer is skipped), `fee + net = amount`, and
`0 ≤ fee ≤ amount`. -/
theorem release_escrow_fee_correct (env : EnvCtx) (s : ContractState)
    (id : Nat) (e : Escrow) (fc : Nat) (bps : Nat)
    (hl : lookupA s.escrows id = some e)
    (hst : e.status = .Pending)
    (ha : env.auths.contains e.buyer = true)
    (hfc : s.feeCollector = some fc)
    (hbps : s.feeBps = some bps)
    (hb : bps ≤ 10000)
    (h0 : 0 ≤ e.amount)
    (hmax : e.amount ≤ I128_MAX)
    (hprod : e.amount * (bps : Int) ≤ I128_MAX) :
    (release_escrow env s id).res = .ok () ∧
    (release_escrow env s id).transfers =
      ⟨e.token, env.contractAddr, e.seller, e.amount - feeOf e.amount bps⟩ ::
        (if 0 < feeOf e.amount bps then
          [⟨e.token, env.contractAddr, fc, feeOf e.amount bps⟩]
         else []) ∧
    lookupA (release_escrow env s id).state.escrows id =
      some { e with status := .Released } ∧
    feeOf e.amount bps + (e.amount - feeOf e.amount bps) = e.amount ∧
    0 ≤ feeOf e.amount bps ∧
    feeOf e.amount bps ≤ e.amount ∧
    10000 * feeOf e.amount bps ≤ e.amount * (bps : Int) ∧
    e.amount * (bps : Int) < 10000 * (feeOf e.amount bps + 1) := by
  have ha' : e.buyer ∈ env.auths := by simpa using ha
  have hbn : (0 : Int) ≤ (bps : Int) := Int.ofNat_nonneg bps
  have hp0 : (0 : Int) ≤ e.amount * (bps : Int) := mul_nonneg h0 hbn
  have hub : e.amount * (bps : Int) ≤ e.amount * 10000 := by
    apply mul_le_mul_of_nonneg_left _ h0
    exact_mod_cast hb
  have hEd : Int.tdiv (e.amount * (bps : Int)) 10000 =
      (e.amount * (bps : Int)) / 10000 :=
    Int.tdiv_eq_ediv hp0 (by norm_num)
  have hdm := Int.ediv_add_emod (e.amount * (bps : Int)) 10000
  have hr0 := Int.emod_nonneg (e.amount * (bps : Int))
    (show (10000 : Int) ≠ 0 by norm_num)
  have hrlt := Int.emod_lt_of_pos (e.amount * (bps : Int))
    (show (0 : Int) < 10000 by norm_num)
  have hlow : 10000 * feeOf e.amount bps ≤ e.amount * (bps : Int) := by
    rw [feeOf, hEd]; omega
  have hhigh : e.amount * (bps : Int) < 10000 * (feeOf e.amount bps + 1) := by
    rw [feeOf, hEd]; omega
  have hfge : 0 ≤ feeOf e.amount bps := Int.tdiv_nonneg hp0 (by norm_num)
  have hfle : feeOf e.amount bps ≤ e.amount := by omega
  have hprod' : e.amount * (bps : Int) ≤ 170141183460469231731687303715884105727 := by
    simpa [I128_MAX] using hprod
  have hmax' : e.amount ≤ 170141183460469231731687303715884105727 := by
    simpa [I128_MAX] using hmax
  have hc1 : checkI128 (e.amount * (bps : Int)) =
      some (e.amount * (bps : Int)) := by
    simp only [checkI128, I128_MIN, I128_MAX]
    rw [if_pos ⟨by linarith [hp0], hprod'⟩]
  have hc2 : checkI128 (e.amount - Int.tdiv (e.amount * (bps : Int)) 10000) =
      some (e.amount - Int.tdiv (e.amount * (bps : Int)) 10000) := by
    have h1 : 0 ≤ e.amount - Int.tdiv (e.amount * (bps : Int)) 10000 := by
      have := hfle; rw [feeOf] at this; omega
    have h2 : e.amount - Int.tdiv (e.amount * (bps : Int)) 10000 ≤
        170141183460469231731687303715884105727 := by
      have := hfge; rw [feeOf] at this; omega
    simp only [checkI128, I128_MIN, I128_MAX]
    rw [if_pos ⟨by omega, h2⟩]
  have hout : release_escrow env s id =
      ⟨.ok (),
       { s with escrows := setA s.escrows id { e with status := .Released } },
       ⟨e.token, env.contractAddr, e.seller, e.amount - feeOf e.amount bps⟩ ::
         (if 0 < feeOf e.amount bps then
           [⟨e.token, env.contractAddr, fc, feeOf e.amount bps⟩]
          else [])⟩ := by
    simp [release_escrow, hl, hst, ha', hfc, hbps, hc1, hc2, feeOf]
  refine ⟨by rw [hout], by rw [hout], ?_, by omega, hfge, hfle, hlow, hhigh⟩
  rw [hout]
  simp [lookupA_setA]

/-- C4 witness (scenario B): fee 250 bps on a 10,000,000 release pays the
seller 9,750,000 and the collector 250,000. -/
theorem release_escrow_fee_correct_witness :
    lookupA stFee.escrows 1 = some escB ∧ (250 : Nat) ≤ 10000 ∧
    escB.amount * ((250 : Nat) : Int) ≤ I128_MAX ∧
    (release_escrow envBuyer stFee 1).transfers =
      [⟨0, 99, 2, 9750000⟩, ⟨0, 99, 3, 250000⟩] ∧
    ((release_escrow envBuyer stFee 1).res = .ok () ∧
     (release_escrow envBuyer stFee 1).transfers =
       ⟨escB.token, envBuyer.contractAddr, escB.seller,
         escB.amount - feeOf escB.amount 250⟩ ::
         (if 0 < feeOf escB.amount 250 then
           [⟨escB.token, envBuyer.contractAddr, 3, feeOf escB.amount 250⟩]
          else []) ∧
     lookupA (release_escrow envBuyer stFee 1).state.escrows 1 =
       some { escB with status := .Released } ∧
     feeOf escB.amount 250 + (escB.amount - feeOf escB.amount 250) = escB.amount ∧
     0 ≤ feeOf escB.amount 250 ∧
     feeOf escB.amount 250 ≤ escB.amount ∧
     10000 * feeOf escB.amount 250 ≤ escB.amount * ((250 : Nat) : Int) ∧
     escB.amount * ((250 : Nat) : Int) < 10000 * (feeOf escB.amount 250 + 1)) :=
  ⟨by decide, by decide, by decide, by decide,
   release_escrow_fee_correct envBuyer stFee 1 escB 3 250 (by decide) (by decide)
     (by decide) (by decide) (by decide) (by decide) (by decide) (by decide)
     (by decide)⟩

/-- C10 witness: the theorem applied at admin 9, escrow 1 of amount 100,
approved request 4 over 60 — the escrow keeps status Pending with amount
40 while both history entries say `is_full_refund = true`. -/
theorem process_refund_flag_after_decrement_witness :
    c10State.admin = some 9 ∧
    lookupA c10State.refundRequests 4 = some reqApproved60 ∧
    ((process_refund envAdmin c10State 4).res = .ok () ∧
     lookupA (process_refund envAdmin c10State 4).state.escrows 1 =
       some { escP with amount := 40 } ∧
     lookupA (process_refund envAdmin c10State 4).state.refundHistory 1 =
       some [⟨4, 1, 60, true, 50, 9⟩] ∧
     (process_refund envAdmin c10State 4).state.globalRefundHistory =
       [⟨4, 1, 60, true, 50, 9⟩]) :=
  ⟨by decide, by decide,
   process_refund_flag_after_decrement envAdmin c10State 4 9 reqApproved60 escP
     (by decide) (by decide) (by decide) (by decide) (by decide) (by decide)
     (by decide)⟩

/-- C7: once an admin is stored, after any operation the stored admin is
either unchanged, or the operation was `set_admin` and the current admin
had authorized the call; and a repeat `initialize` that succeeds was
authorized by the current admin and rewrote exactly the fee collector and
the fee bps, leaving everything else — the admin included — unchanged. -/
theorem admin_immutable (env : EnvCtx) (op : Op) (s : ContractState) (a : Nat)
    (h : s.admin = some a) :
    ((step env op s).state.admin = some a ∨
      (∃ a', op = .opSetAdmin a' ∧ env.auths.contains a = true ∧
        (step env op s).state.admin = some a')) ∧
    (∀ ad fc bps, op = .opInitContract ad fc bps →
      (step env op s).res = .ok () →
      env.auths.contains a = true ∧
      (step env op s).state =
        { s with feeCollector := some fc, feeBps := some bps }) := by
  constructor
  · cases op with
    | opSetAdmin a' =>
      cases hca : env.auths.contains a with
      | false =>
        left
        have hm : a ∉ env.auths := by simpa using hca
        simp [step, set_admin, h, hm]
      | true =>
        right
        have hm : a ∈ env.auths := by simpa using hca
        exact ⟨a', rfl, rfl, by simp [step, set_admin, h, hm]⟩
    | opInitContract ad fc bps =>
      left
      simp only [step, initContract, h]
      repeat' split
      all_goals (try simp_all)
    | opInitValue v => left; simp [step, initValue, h]
    | opStoreEscrow eid esc =>
      left; simp only [step, store_escrow]; repeat' split; all_goals (try simp_all)
    | opFundEscrow eid =>
      left; simp only [step, fund_escrow]; repeat' split; all_goals (try simp_all)
    | opReleaseEscrow eid =>
      left; simp only [step, release_escrow]; repeat' split; all_goals (try simp_all)
    | opRefundEscrow eid init =>
      left; simp only [step, refund_escrow]; repeat' split; all_goals (try simp_all)
    | opTransitionStatus eid ns =>
      left; simp only [step, transition_status]; repeat' split; all_goals (try simp_all)
    | opResolveDispute eid res =>
      left; simp only [step, resolve_dispute]; repeat' split; all_goals (try simp_all)
    | opSetFeePercentage bps =>
      left; simp only [step, set_fee_percentage]; repeat' split; all_goals (try simp_all)
    | opSubmitRefundRequest eid amt r d =>
      left
      simp only [step, Outcome.toUnit, submit_refund_request]
      repeat' split
      all_goals (try simp_all)
    | opApproveRefundRequest rid =>
      left; simp only [step, approve_refund_request]; repeat' split; all_goals (try simp_all)
    | opRejectRefundRequest rid reason =>
      left; simp only [step, reject_refund_request]; repeat' split; all_goals (try simp_all)
    | opProcessRefund rid =>
      left; simp only [step, process_refund]; repeat' split; all_goals (try simp_all)
    | opCancelRefundRequest rid =>
      left; simp only [step, cancel_refund_request]; repeat' split; all_goals (try simp_all)
  · intro ad fc bps hop hok
    subst hop
    by_cases hbps : bps > 10000
    · simp [step, initContract, hbps] at hok
    · cases hca : env.auths.contains a with
      | false =>
        have hm : a ∉ env.auths := by simpa using hca
        simp [step, initContract, hbps, h, hm] at hok
      | true =>
        have hm : a ∈ env.auths := by simpa using hca
        simp [step, initContract, hbps, h, hm]

/-- C7 witness: on a state with admin 9, a repeat `initialize` by the
authorized admin succeeds and rewrites only the fee collector and the fee
bps; the applied theorem confirms the admin stays 9. -/
theorem admin_immutable_witness :
    c10State.admin = some 9 ∧
    (((step envAdmin (.opInitContract 5 6 300) c10State).state.admin = some 9 ∨
      (∃ a', Op.opInitContract 5 6 300 = Op.opSetAdmin a' ∧
        envAdmin.auths.contains 9 = true ∧
        (step envAdmin (.opInitContract 5 6 300) c10State).state.admin = some a')) ∧
     (∀ ad fc bps, Op.opInitContract 5 6 300 = .opInitContract ad fc bps →
      (step envAdmin (.opInitContract 5 6 300) c10State).res = .ok () →
      envAdmin.auths.contains 9 = true ∧
      (step envAdmin (.opInitContract 5 6 300) c10State).state =
        { c10State with feeCollector := some fc, feeBps := some bps })) :=
  ⟨by decide,
   admin_immutable envAdmin (.opInitContract 5 6 300) c10State 9 (by decide)⟩

/-- C8: `release_partial` (spec-modelled; absent from src/) on a Pending
escrow with a valid invariant state: an authorized release whose new
released amount would exceed the escrow amount is rejected with
`InvalidReleaseAmount`; a successful release adds the released amount to
`released_amount`, keeps `amount`, sets the status to Released exactly
when `released_amount` reaches `amount` (staying Pending below it), and
preserves `0 ≤ released_amount ≤ amount`. -/
theorem releasePartial_correct (feeBps minFee : Int) (authd : Bool)
    (e : SpecEscrow) (amt : Int)
    (hst : e.status = .Pending)
    (hauth : authd = true)
    (hinv0 : 0 ≤ e.releasedAmount) (hinv1 : e.releasedAmount ≤ e.amount) :
    (e.amount < e.releasedAmount + amt →
      releasePartial feeBps minFee authd e amt = .error .InvalidReleaseAmount) ∧
    (∀ e', releasePartial feeBps minFee authd e amt = .ok e' →
      e'.releasedAmount = e.releasedAmount + amt ∧
      e'.amount = e.amount ∧
      (e'.status = .Released ↔ e'.releasedAmount = e.amount) ∧
      (e'.status = .Pending ↔ e'.releasedAmount < e.amount) ∧
      0 ≤ e'.releasedAmount ∧ e'.releasedAmount ≤ e.amount) := by
  subst hauth
  constructor
  · intro hex
    by_cases hamt : amt ≤ 0 <;> simp [releasePartial, hst, hamt, hex]
  · intro e' hok
    simp only [releasePartial, hst] at hok
    repeat' split at hok
    all_goals
      first
      | (rw [Except.ok.injEq] at hok
         subst hok
         refine ⟨rfl, rfl, ?_, ?_, ?_, ?_⟩ <;> simp <;> omega)
      | simp at hok

/-- C8 witness (scenario A): on the Pending escrow of amount 10,000,000
with nothing released, releasing 4,000,000 leaves the status Pending with
`released_amount` 4,000,000; a further 7,000,000 is rejected with
`InvalidReleaseAmount`; a further 6,000,000 reaches the full amount and
flips the status to Released; the applied theorem covers the general
clauses at the first call. -/
theorem releasePartial_correct_witness :
    specA.status = .Pending ∧ (0 : Int) ≤ specA.releasedAmount ∧
    releasePartial 0 0 true specA 4000000 =
      .ok ⟨1, 2, 10000000, 4000000, .Pending⟩ ∧
    releasePartial 0 0 true ⟨1, 2, 10000000, 4000000, .Pending⟩ 7000000 =
      .error .InvalidReleaseAmount ∧
    releasePartial 0 0 true ⟨1, 2, 10000000, 4000000, .Pending⟩ 6000000 =
      .ok ⟨1, 2, 10000000, 10000000, .Released⟩ ∧
    ((specA.amount < specA.releasedAmount + 4000000 →
      releasePartial 0 0 true specA 4000000 = .error .InvalidReleaseAmount) ∧
     (∀ e', releasePartial 0 0 true specA 4000000 = .ok e' →
      e'.releasedAmount = specA.releasedAmount + 4000000 ∧
      e'.amount = specA.amount ∧
      (e'.status = .Released ↔ e'.releasedAmount = specA.amount) ∧
      (e'.status = .Pending ↔ e'.releasedAmount < specA.amount) ∧
      0 ≤ e'.releasedAmount ∧ e'.releasedAmount ≤ specA.amount)) :=
  ⟨by decide, by decide, by decide, by decide, by decide,
   releasePartial_correct 0 0 true specA 4000000 (by decide) (by decide)
     (by decide) (by decide)⟩

/-- C9: the reentrancy guard (spec-modelled; absent from src/): a nested
invocation of the guarded release or partial release while the guard is
held fails with `ReentrancyDetected` and leaves both the guard and the
escrow record — `released_amount` included — untouched; and a top-level
invocation, whether it succeeds or fails, always leaves the guard
cleared. -/
theorem reentrancy_guard_correct (feeBps minFee : Int) (authd : Bool)
    (amt : Int) (e : SpecEscrow) :
    guardedReleaseEscrow feeBps minFee authd true e =
      ⟨.error .ReentrancyDetected, true, e⟩ ∧
    guardedReleasePartial feeBps minFee authd amt true e =
      ⟨.error .ReentrancyDetected, true, e⟩ ∧
    (guardedReleaseEscrow feeBps minFee authd false e).guard = false ∧
    (guardedReleasePartial feeBps minFee authd amt false e).guard = false := by
  refine ⟨rfl, rfl, ?_, ?_⟩ <;>
    simp only [guardedReleaseEscrow, guardedReleasePartial, guarded,
      if_false, Bool.false_eq_true] <;>
    split <;> rfl

/-- C6: whenever an operation ends in an error — a returned
`ContractError`, an authorization trap, a storage trap or an overflow
trap — the storage is left exactly as it was before the call and no token
transfer has been issued: every entry point performs all of its
validation before its first write or transfer. -/
theorem error_no_mutation (env : EnvCtx) (op : Op) (s : ContractState)
    (err : CallError) (h : (step env op s).res = .error err) :
    (step env op s).state = s ∧ (step env op s).transfers = [] := by
  cases op <;>
    simp only [step, Outcome.toUnit, initContract, initValue, store_escrow,
      fund_escrow, release_escrow, refund_escrow, transition_status,
      resolve_dispute, set_admin, set_fee_percentage, submit_refund_request,
      approve_refund_request, reject_refund_request, process_refund,
      cancel_refund_request] at h ⊢ <;>
    (repeat' split at h) <;>
    (try simp_all [Except.map]) <;>
    (repeat' split) <;>
    simp_all [Except.map]

/-- C6 witness: funding a nonexistent escrow on the empty storage fails
with `EscrowNotFound`, and the applied theorem shows the storage and the
transfer list are untouched. -/
theorem error_no_mutation_witness :
    (step envNone (.opFundEscrow 1) st0).res =
      .error (.contractErr .EscrowNotFound) ∧
    ((step envNone (.opFundEscrow 1) st0).state = st0 ∧
     (step envNone (.opFundEscrow 1) st0).transfers = []) :=
  ⟨by decide,
   error_no_mutation envNone (.opFundEscrow 1) st0
     (.contractErr .EscrowNotFound) (by decide)⟩

/-- C1 counterexample: `process_refund` — one of the operations the claim
quantifies over — validates only the refund request, never the escrow
status: on the Released (terminal) escrow `escR` with an approved
full-amount refund request, it succeeds and moves the status from
Released to Refunded, which is not an edge of the transition graph. -/
theorem status_graph_cx :
    lookupA stC1.escrows 5 = some escR ∧
    escR.status = .Released ∧
    (step envAdmin (.opProcessRefund 2) stC1).res = .ok () ∧
    lookupA (step envAdmin (.opProcessRefund 2) stC1).state.escrows 5 =
      some { escR with status := .Refunded } ∧
    can_transition_to .Released .Refunded = false := by decide

/-- C1 amended: for every operation except `store_escrow` (which silently
overwrites a whole record, status included) and `process_refund`, every
change of a stored escrow status follows an edge of the transition graph
Pending to Released/Disputed/Refunded, Disputed to Released/Refunded —
in particular those operations never move an escrow out of Released or
Refunded; `process_refund` changes a status only to Refunded, but does so
from whatever status the escrow currently has. -/
theorem status_transitions_amended :
    (∀ (env : EnvCtx) (op : Op) (s : ContractState) (id : Nat) (e e' : Escrow),
      op.graphGoverned = true →
      lookupA s.escrows id = some e →
      lookupA (step env op s).state.escrows id = some e' →
      e.status ≠ e'.status →
      can_transition_to e.status e'.status = true) ∧
    (∀ (env : EnvCtx) (rid : Nat) (s : ContractState) (id : Nat) (e e' : Escrow),
      lookupA s.escrows id = some e →
      lookupA (step env (.opProcessRefund rid) s).state.escrows id = some e' →
      e.status ≠ e'.status →
      e'.status = .Refunded) := by
  constructor
  · intro env op s id e e' hsafe hb ha hne
    cases op with
    | opStoreEscrow eid esc => simp [Op.graphGoverned] at hsafe
    | opProcessRefund rid => simp [Op.graphGoverned] at hsafe
    | opInitContract ad fc bps =>
      simp only [step, initContract] at ha
      repeat' split at ha
      all_goals simp_all
    | opInitValue v =>
      simp only [step, initValue] at ha
      simp_all
    | opFundEscrow eid =>
      simp only [step, fund_escrow] at ha
      repeat' split at ha
      all_goals simp_all
    | opReleaseEscrow eid =>
      simp only [step, release_escrow] at ha
      repeat' split at ha
      all_goals (try dsimp only at ha)
      all_goals (try (rw [lookupA_setA] at ha; split at ha))
      all_goals (try (simp only [Option.some.injEq] at ha; subst ha))
      all_goals simp_all [can_transition_to]
    | opRefundEscrow eid init =>
      simp only [step, refund_escrow] at ha
      repeat' split at ha
      all_goals (try dsimp only at ha)
      all_goals (try (rw [lookupA_setA] at ha; split at ha))
      all_goals (try (simp only [Option.some.injEq] at ha; subst ha))
      all_goals simp_all [can_transition_to]
    | opTransitionStatus eid ns =>
      simp only [step, transition_status] at ha
      repeat' split at ha
      all_goals (try dsimp only at ha)
      all_goals (try (rw [lookupA_setA] at ha; split at ha))
      all_goals (try (simp only [Option.some.injEq] at ha; subst ha))
      all_goals simp_all [can_transition_to]
    | opResolveDispute eid res =>
      cases res <;>
        (simp only [step, resolve_dispute] at ha
         repeat' split at ha
         all_goals (try dsimp only at ha)
         all_goals (try (rw [lookupA_setA] at ha; split at ha))
         all_goals (try (simp only [Option.some.injEq] at ha; subst ha))
         all_goals simp_all [can_transition_to])
    | opSetAdmin a =>
      simp only [step, set_admin] at ha
      repeat' split at ha
      all_goals simp_all
    | opSetFeePercentage bps =>
      simp only [step, set_fee_percentage] at ha
      repeat' split at ha
      all_goals simp_all
    | opSubmitRefundRequest eid amt r d =>
      simp only [step, Outcome.toUnit, submit_refund_request] at ha
      repeat' split at ha
      all_goals simp_all
    | opApproveRefundRequest rid =>
      simp only [step, approve_refund_request] at ha
      repeat' split at ha
      all_goals simp_all
    | opRejectRefundRequest rid reason =>
      simp only [step, reject_refund_request] at ha
      repeat' split at ha
      all_goals simp_all
    | opCancelRefundRequest rid =>
      simp only [step, cancel_refund_request] at ha
      repeat' split at ha
      all_goals simp_all
  · intro env rid s id e e' hb ha hne
    simp only [step, process_refund] at ha
    repeat' split at ha
    all_goals (try dsimp only at ha)
    all_goals (try (rw [lookupA_setA] at ha; split at ha))
    all_goals (try (simp only [Option.some.injEq] at ha; subst ha))
    all_goals simp_all

/-- C1 witness: raising a dispute through `transition_status` changes the
status of the Pending escrow `escP` from Pending to Disputed, and the
applied theorem confirms it is a legal edge; the `process_refund` clause
is witnessed on the counterexample state, where the new status is indeed
Refunded. -/
theorem status_transitions_amended_witness :
    Op.graphGoverned (.opTransitionStatus 1 .Disputed) = true ∧
    lookupA stPending.escrows 1 = some escP ∧
    lookupA (step envBuyer (.opTransitionStatus 1 .Disputed) stPending).state.escrows 1 =
      some { escP with status := .Disputed } ∧
    escP.status ≠ EscrowStatus.Disputed ∧
    can_transition_to escP.status ({ escP with status := .Disputed } : Escrow).status = true ∧
    ({ escR with status := .Refunded } : Escrow).status = .Refunded :=
  ⟨by decide, by decide, by decide, by decide,
   status_transitions_amended.1 envBuyer (.opTransitionStatus 1 .Disputed)
     stPending 1 escP { escP with status := .Disputed } (by decide) (by decide)
     (by decide) (by decide),
   status_transitions_amended.2 envAdmin 2 stC1 5 escR
     { escR with status := .Refunded } (by decide) (by decide) (by decide)⟩

end MarketX
